import Mathlib

/-!
# Verification of the `process_split` stake-split instruction handler

A shallow embedding of `src/program/src/instruction/split.rs` from the
`pinocchio-stake` repository, together with proofs of the testable
properties of its specification.

The repository ships only the handler itself; its collaborators
(`collect_signers`, `validate_split_amount`, `relocate_lamports`,
`Stake::split`, `Authorized::check`, the stake-activation evaluator, the
rent policy and the minimum-delegation policy) live outside the provided
sources and are modelled here from the specification, each marked
`Modelled from the spec`.  Machine integers (`u64`) are modelled as `Nat`
with explicit byte encodings where the source manipulates byte arrays;
Rust's `saturating_sub` coincides with truncated `Nat` subtraction.
-/

set_option autoImplicit false

namespace PinocchioStake

/-! ## Byte encodings of `u64` fields

The on-disk record format stores `u64` fields as 8-byte arrays.  The
source reads them with `u64::from_le_bytes` and writes them with
`to_le_bytes` (and, in one branch, `to_be_bytes`), so the encoding is
modelled explicitly. -/

/-- Little-endian byte list of length `k` for a natural number. -/
def natToLeBytes : Nat → Nat → List Nat
  | 0, _ => []
  | k + 1, n => n % 256 :: natToLeBytes k (n / 256)

/-- Value of a little-endian byte list (each entry reduced mod 256,
as bytes are `u8`). -/
def leBytesToNat : List Nat → Nat
  | [] => 0
  | b :: rest => b % 256 + 256 * leBytesToNat rest

/-- `u64::to_le_bytes`. -/
def u64_to_le_bytes (n : Nat) : List Nat := natToLeBytes 8 n

/-- `u64::to_be_bytes`. -/
def u64_to_be_bytes (n : Nat) : List Nat := (natToLeBytes 8 n).reverse

/-- `u64::from_le_bytes`. -/
def u64_from_le_bytes (bs : List Nat) : Nat := leBytesToNat bs

/-- `u64::from_be_bytes`. -/
def u64_from_be_bytes (bs : List Nat) : Nat := leBytesToNat bs.reverse

/-- Modelled from the spec: `bytes_to_u64` (from `crate::state`, not in
the provided sources) decodes a stored `u64` field; the record format's
canonical encoding is little-endian, as witnessed by every
`u64::from_le_bytes` read in the handler. -/
def bytes_to_u64 (bs : List Nat) : Nat := leBytesToNat bs

theorem leBytesToNat_natToLeBytes (k : Nat) :
    ∀ n, leBytesToNat (natToLeBytes k n) = n % 256 ^ k := by
  induction k with
  | zero =>
    intro n
    simp [natToLeBytes, leBytesToNat, Nat.mod_one]
  | succ k ih =>
    intro n
    simp only [natToLeBytes, leBytesToNat, ih]
    have hp : (256 : Nat) ^ (k + 1) = 256 * 256 ^ k := by
      rw [pow_succ]; ring
    rw [hp]
    have h1 : n % (256 * 256 ^ k) % 256 = n % 256 :=
      Nat.mod_mod_of_dvd n (dvd_mul_right 256 (256 ^ k))
    have h2 : n % (256 * 256 ^ k) / 256 = n / 256 % 256 ^ k :=
      Nat.mod_mul_right_div_self n 256 (256 ^ k)
    have h3 := Nat.div_add_mod (n % (256 * 256 ^ k)) 256
    have h4 : n % 256 % 256 = n % 256 :=
      Nat.mod_mod_of_dvd n (dvd_refl 256)
    omega

theorem u64_from_le_bytes_to_le (n : Nat) :
    u64_from_le_bytes (u64_to_le_bytes n) = n % 2 ^ 64 := by
  have h := leBytesToNat_natToLeBytes 8 n
  have : (256 : Nat) ^ 8 = 2 ^ 64 := by norm_num
  simpa [u64_from_le_bytes, u64_to_le_bytes, this] using h

theorem u64_from_be_bytes_to_be (n : Nat) :
    u64_from_be_bytes (u64_to_be_bytes n) = n % 2 ^ 64 := by
  have h := leBytesToNat_natToLeBytes 8 n
  have : (256 : Nat) ^ 8 = 2 ^ 64 := by norm_num
  simpa [u64_from_be_bytes, u64_to_be_bytes, this] using h

theorem leBytesToNat_lt (bs : List Nat) :
    leBytesToNat bs < 256 ^ bs.length := by
  induction bs with
  | nil => simp [leBytesToNat]
  | cons b rest ih =>
    simp only [leBytesToNat, List.length_cons, pow_succ]
    have hb : b % 256 < 256 := Nat.mod_lt _ (by omega)
    have : (256 : Nat) ^ rest.length * 256 = 256 * 256 ^ rest.length := by ring
    rw [this]
    omega

/-! ## Data model (`StakeStateV2` and friends)

Field layouts follow the source: `u64` fields that the handler reads or
writes through byte conversions are stored as byte lists; fields the
handler merely copies are opaque naturals. -/

/-- Staker/withdrawer authority pair (`Authorized`). Keys are opaque. -/
structure Authorized where
  staker : Nat
  withdrawer : Nat
deriving DecidableEq, Repr

/-- Account metadata (`Meta`): rent-exempt reserve (stored as the record
format's 8-byte field), authorities, and an opaque lockup. -/
structure Meta where
  rent_exempt_reserve : List Nat
  authorized : Authorized
  lockup : Nat
deriving DecidableEq, Repr

/-- A delegation (`Delegation`): voter key, stake amount (stored as the
record format's 8-byte field), activation/deactivation epochs (opaque
byte fields), warmup/cooldown rate is opaque and never touched by split. -/
structure Delegation where
  voter_pubkey : Nat
  stake : List Nat
  activation_epoch : List Nat
  deactivation_epoch : List Nat
deriving DecidableEq, Repr

/-- The `Stake` payload of a `StakeStateV2::Stake` variant. -/
structure StakeData where
  delegation : Delegation
deriving DecidableEq, Repr

/-- The four-variant stake account state (`StakeStateV2`). -/
inductive StakeStateV2 where
  | Uninitialized : StakeStateV2
  | Initialized (meta : Meta) : StakeStateV2
  | Stake (meta : Meta) (stake : StakeData) (stake_flags : Nat) : StakeStateV2
  | RewardsPool : StakeStateV2
deriving DecidableEq, Repr

/-- Modelled from the spec: `StakeStateV2::size_of()` — the fixed size of
the stake-record byte layout, an external constant of the state format. -/
def StakeStateV2.size_of : Nat := 200

/-- Observer: the delegated stake amount recorded in a state (decoded
with the record format's canonical little-endian encoding); zero for
variants that carry no delegation. -/
def StakeStateV2.delegated_stake : StakeStateV2 → Nat
  | .Stake _ s _ => u64_from_le_bytes s.delegation.stake
  | _ => 0

/-- An account as the handler sees it: key, lamport balance, data length,
signer flag, and the parsed `StakeStateV2` (the external decode
`try_get_stake_state_mut` is assumed to succeed). -/
structure AccountInfo where
  key : Nat
  lamports : Nat
  data_len : Nat
  is_signer : Bool
  state : StakeStateV2
deriving DecidableEq, Repr

/-- The error codes the handler can produce.  `InsufficientDelegation`
and `InvalidDelegationAmount` stand for the corresponding `StakeError`
custom errors after `to_program_error`. -/
inductive ProgramError where
  | NotEnoughAccountKeys : ProgramError
  | InvalidAccountData : ProgramError
  | InsufficientFunds : ProgramError
  | MissingRequiredSignature : ProgramError
  | InsufficientDelegation : ProgramError
  | InvalidDelegationAmount : ProgramError
deriving DecidableEq, Repr

/-- Result of the Split Amount Validator (`ValidatedSplitInfo`). -/
structure ValidatedSplitInfo where
  source_remaining_balance : Nat
  destination_rent_exempt_reserve : Nat
deriving DecidableEq, Repr

/-- One invocation of the stake-activation evaluator, as observed at the
call site: the delegation consulted and the epoch argument passed. -/
structure EvalCall where
  delegation : Delegation
  epoch_arg : List Nat
deriving DecidableEq, Repr

/-- The runtime environment: current epoch from the clock, the
minimum-delegation policy value, the rent-exemption threshold function,
and the externally supplied stake-activation evaluator (returning the
`effective` field of the activation status as a byte field). -/
structure Env where
  clock_epoch : Nat
  minimum_delegation : Nat
  rent_minimum_balance : Nat → Nat
  effective_stake : Delegation → List Nat → List Nat

/-- Outcome of one run of the handler: the result (final source and
destination accounts on success — on failure the runtime persists no
mutation, so an error carries no accounts), plus the observed
evaluator and validator invocations. -/
structure SplitRun where
  result : Except ProgramError (AccountInfo × AccountInfo)
  eval_calls : List EvalCall
  validator_calls : Nat

/-! ## Modelled collaborators -/

/-- Modelled from the spec: `collect_signers` — signer-set extraction
from the transaction's account list (external); yields the keys of the
accounts whose owning key signed the transaction. -/
def collect_signers (accounts : List AccountInfo) : List Nat :=
  (accounts.filter (fun a => a.is_signer)).map (fun a => a.key)

/-- Modelled from the spec: `Authorized::check` with role Staker —
verifies the transaction's signer set contains the account's designated
staker authority. -/
def Authorized.check (a : Authorized) (signers : List Nat) : Bool :=
  signers.contains a.staker

/-- Modelled from the spec: `validate_split_amount` (from `crate::state`,
not in the provided sources).  Checks, in order: the split amount must
not exceed the source balance; the remaining source balance must be zero
or at least the source's rent-exempt reserve; the resulting destination
balance must be at least the destination's rent-exempt reserve (computed
from the destination size via the external rent policy).  The
minimum-delegation and activity arguments are carried but not enforced
here; the minimum-delegation decision is made in the orchestrator. -/
def validate_split_amount (env : Env) (source_lamport_balance destination_lamport_balance
    split_lamports : Nat) (source_meta : Meta) (destination_data_len : Nat)
    (_additional_required_lamports : Nat) (_source_is_active : Bool) :
    Except ProgramError ValidatedSplitInfo :=
  if split_lamports > source_lamport_balance then
    .error .InsufficientFunds
  else
    let destination_rent_exempt_reserve := env.rent_minimum_balance destination_data_len
    let source_remaining_balance := source_lamport_balance - split_lamports
    if source_remaining_balance ≠ 0 ∧
        source_remaining_balance < u64_from_le_bytes source_meta.rent_exempt_reserve then
      .error .InsufficientFunds
    else if destination_lamport_balance + split_lamports < destination_rent_exempt_reserve then
      .error .InsufficientFunds
    else
      .ok ⟨source_remaining_balance, destination_rent_exempt_reserve⟩

/-- Modelled from the spec: `Stake::split` — the dedicated
split-delegation operation; validates `remaining_stake_delta` does not
exceed the current stake (else invalid-delegation-amount), debits it
from the source delegation and builds the destination delegation with
stake `split_stake_amount` and the same voter/epochs. -/
def StakeData.split (s : StakeData) (remaining_stake_delta split_stake_amount : Nat) :
    Except ProgramError (StakeData × StakeData) :=
  let current := u64_from_le_bytes s.delegation.stake
  if remaining_stake_delta > current then
    .error .InvalidDelegationAmount
  else
    .ok (⟨{ s.delegation with stake := u64_to_le_bytes (current - remaining_stake_delta) }⟩,
         ⟨{ s.delegation with stake := u64_to_le_bytes split_stake_amount }⟩)

/-- Modelled from the spec: `relocate_lamports` — debits `amount` from
the source balance and credits it to the destination balance; fails with
insufficient-funds if `amount` exceeds the source's current balance. -/
def relocate_lamports (source_lamports destination_lamports amount : Nat) :
    Except ProgramError (Nat × Nat) :=
  if amount > source_lamports then
    .error .InsufficientFunds
  else
    .ok (source_lamports - amount, destination_lamports + amount)

/-! ## The handler (`process_split`), translated from
`src/program/src/instruction/split.rs` -/

/-- The stake/balance partition arithmetic of the `Stake` branch
(`split.rs` lines 93–127): on a full split (`source_remaining_balance ==
0`) both the removed stake delta and the granted destination stake equal
`split_lamports` minus the source's original rent-exempt reserve
(saturating); on a partial split, first re-check the minimum-delegation
floor on the remaining source stake, then remove `split_lamports` of
stake and grant `split_lamports` minus the destination rent top-up. -/
def split_stake_amounts (source_remaining_balance split_lamports
    source_rent_exempt_reserve stake_amount minimum_delegation
    destination_rent_exempt_reserve destination_lamport_balance : Nat) :
    Except ProgramError (Nat × Nat) :=
  if source_remaining_balance = 0 then
    let remaining_stake_delta := split_lamports - source_rent_exempt_reserve
    .ok (remaining_stake_delta, remaining_stake_delta)
  else if stake_amount - split_lamports < minimum_delegation then
    .error .InsufficientDelegation
  else
    .ok (split_lamports,
      split_lamports - (destination_rent_exempt_reserve - destination_lamport_balance))

/-- The `StakeStateV2::Stake` arm of the dispatch (`split.rs` lines
60–145): staker authorization, activation evaluation, split-amount
validation, partition arithmetic, destination-stake floor, the
split-delegation operation, and construction of the two new states.  The
destination meta copies the source meta with `rent_exempt_reserve`
overwritten — written with `to_be_bytes` exactly as the source does. -/
def stake_branch (env : Env) (signers : List Nat)
    (source_lamport_balance destination_lamport_balance destination_data_len
    split_lamports : Nat) (source_meta : Meta) (source_stake : StakeData)
    (stake_flags : Nat) :
    Except ProgramError (StakeStateV2 × StakeStateV2) × List EvalCall × Nat :=
  if source_meta.authorized.check signers then
    let minimum_delegation := env.minimum_delegation
    let epoch_arg := u64_to_be_bytes env.clock_epoch
    let status_effective := env.effective_stake source_stake.delegation epoch_arg
    let is_active : Bool := bytes_to_u64 status_effective > 0
    let ec : List EvalCall := [⟨source_stake.delegation, epoch_arg⟩]
    match validate_split_amount env source_lamport_balance destination_lamport_balance
        split_lamports source_meta destination_data_len minimum_delegation is_active with
    | .error e => (.error e, ec, 1)
    | .ok validated_split_info =>
      match split_stake_amounts validated_split_info.source_remaining_balance
          split_lamports (u64_from_le_bytes source_meta.rent_exempt_reserve)
          (u64_from_le_bytes source_stake.delegation.stake) minimum_delegation
          validated_split_info.destination_rent_exempt_reserve
          destination_lamport_balance with
      | .error e => (.error e, ec, 1)
      | .ok (remaining_stake_delta, split_stake_amount) =>
        if split_stake_amount < minimum_delegation then
          (.error .InsufficientDelegation, ec, 1)
        else
          match source_stake.split remaining_stake_delta split_stake_amount with
          | .error e => (.error e, ec, 1)
          | .ok (new_source_stake, destination_stake) =>
            let destination_meta := { source_meta with
              rent_exempt_reserve :=
                u64_to_be_bytes validated_split_info.destination_rent_exempt_reserve }
            (.ok (.Stake source_meta new_source_stake stake_flags,
                  .Stake destination_meta destination_stake stake_flags), ec, 1)
  else
    (.error .MissingRequiredSignature, [], 0)

/-- The `StakeStateV2::Initialized` arm of the dispatch (`split.rs`
lines 146–169): staker authorization, split-amount validation with zero
additional required lamports and inactive flag, and the destination meta
copy — here `rent_exempt_reserve` is written with `to_le_bytes`. -/
def initialized_branch (env : Env) (signers : List Nat)
    (source_lamport_balance destination_lamport_balance destination_data_len
    split_lamports : Nat) (source_meta : Meta) :
    Except ProgramError (StakeStateV2 × StakeStateV2) × List EvalCall × Nat :=
  if source_meta.authorized.check signers then
    match validate_split_amount env source_lamport_balance destination_lamport_balance
        split_lamports source_meta destination_data_len 0 false with
    | .error e => (.error e, [], 1)
    | .ok validated_split_info =>
      let destination_meta := { source_meta with
        rent_exempt_reserve :=
          u64_to_le_bytes validated_split_info.destination_rent_exempt_reserve }
      (.ok (.Initialized source_meta, .Initialized destination_meta), [], 1)
  else
    (.error .MissingRequiredSignature, [], 0)

/-- The dispatch on the source state (`split.rs` lines 60–176): `Stake`
and `Initialized` run their branches; `Uninitialized` requires the source
account itself to have signed; any other variant is invalid account
data.  Returns (new source state, new destination state) before the
full-drain post-processing. -/
def source_dispatch (env : Env) (signers : List Nat)
    (source destination : AccountInfo) (split_lamports : Nat) :
    Except ProgramError (StakeStateV2 × StakeStateV2) × List EvalCall × Nat :=
  match source.state with
  | .Stake source_meta source_stake stake_flags =>
    stake_branch env signers source.lamports destination.lamports
      destination.data_len split_lamports source_meta source_stake stake_flags
  | .Initialized source_meta =>
    initialized_branch env signers source.lamports destination.lamports
      destination.data_len split_lamports source_meta
  | .Uninitialized =>
    if source.is_signer then
      (.ok (.Uninitialized, .Uninitialized), [], 0)
    else
      (.error .MissingRequiredSignature, [], 0)
  | .RewardsPool => (.error .InvalidAccountData, [], 0)

/-- `process_split` (`split.rs` lines 26–187): collects signers, takes
the first two accounts (else not-enough-account-keys), checks the
destination's data length against the record size, checks the split
amount against the source balance, requires the destination's parsed
state to be `Uninitialized`, dispatches on the source state, overwrites
the source state to `Uninitialized` on a full drain, and relocates the
lamports. -/
def process_split (env : Env) (accounts : List AccountInfo) (split_lamports : Nat) :
    SplitRun :=
  match accounts with
  | source :: destination :: rest =>
    if destination.data_len ≠ StakeStateV2.size_of then
      ⟨.error .InvalidAccountData, [], 0⟩
    else if split_lamports > source.lamports then
      ⟨.error .InsufficientFunds, [], 0⟩
    else
      match destination.state with
      | .Uninitialized =>
        match source_dispatch env (collect_signers (source :: destination :: rest))
            source destination split_lamports with
        | (.error e, ec, vc) => ⟨.error e, ec, vc⟩
        | (.ok (new_source_state, new_destination_state), ec, vc) =>
          match relocate_lamports source.lamports destination.lamports split_lamports with
          | .error e => ⟨.error e, ec, vc⟩
          | .ok (source_lamports_after, destination_lamports_after) =>
            ⟨.ok ({ source with
                      state := if split_lamports = source.lamports then
                          .Uninitialized
                        else new_source_state,
                      lamports := source_lamports_after },
                  { destination with
                      state := new_destination_state,
                      lamports := destination_lamports_after }), ec, vc⟩
      | _ => ⟨.error .InvalidAccountData, [], 0⟩
  | _ => ⟨.error .NotEnoughAccountKeys, [], 0⟩

/-! ## Inversion lemmas -/

theorem stakeData_split_ok (st : StakeData) (delta amount : Nat) (s1 s2 : StakeData)
    (h : st.split delta amount = .ok (s1, s2)) :
    delta ≤ u64_from_le_bytes st.delegation.stake ∧
    s1 = ⟨{ st.delegation with
        stake := u64_to_le_bytes (u64_from_le_bytes st.delegation.stake - delta) }⟩ ∧
    s2 = ⟨{ st.delegation with stake := u64_to_le_bytes amount }⟩ := by
  simp only [StakeData.split] at h
  split at h
  · exact absurd h (by simp)
  · rename_i hle
    simp only [Except.ok.injEq, Prod.mk.injEq] at h
    exact ⟨by omega, h.1.symm, h.2.symm⟩

theorem split_stake_amounts_ok (srb a rer stk mind drer dbal delta amount : Nat)
    (h : split_stake_amounts srb a rer stk mind drer dbal = .ok (delta, amount)) :
    (srb = 0 ∧ delta = a - rer ∧ amount = a - rer) ∨
    (srb ≠ 0 ∧ mind ≤ stk - a ∧ delta = a ∧ amount = a - (drer - dbal)) := by
  simp only [split_stake_amounts] at h
  split at h
  · rename_i h0
    simp only [Except.ok.injEq, Prod.mk.injEq] at h
    exact Or.inl ⟨h0, h.1.symm, h.2.symm⟩
  · rename_i h0
    split at h
    · exact absurd h (by simp)
    · rename_i hmin
      simp only [Except.ok.injEq, Prod.mk.injEq] at h
      exact Or.inr ⟨h0, by omega, h.1.symm, h.2.symm⟩

theorem stake_branch_ok (env : Env) (signers : List Nat)
    (sb db dl a : Nat) (meta : Meta) (st : StakeData) (fl : Nat)
    (ns nd : StakeStateV2) (ec : List EvalCall) (vc : Nat)
    (h : stake_branch env signers sb db dl a meta st fl = (.ok (ns, nd), ec, vc)) :
    meta.authorized.check signers = true ∧
    ∃ info delta amount,
      validate_split_amount env sb db a meta dl env.minimum_delegation
        (bytes_to_u64 (env.effective_stake st.delegation
          (u64_to_be_bytes env.clock_epoch)) > 0) = .ok info ∧
      split_stake_amounts info.source_remaining_balance a
        (u64_from_le_bytes meta.rent_exempt_reserve)
        (u64_from_le_bytes st.delegation.stake) env.minimum_delegation
        info.destination_rent_exempt_reserve db = .ok (delta, amount) ∧
      env.minimum_delegation ≤ amount ∧
      delta ≤ u64_from_le_bytes st.delegation.stake ∧
      ns = .Stake meta
          ⟨{ st.delegation with
             stake := u64_to_le_bytes (u64_from_le_bytes st.delegation.stake - delta) }⟩ fl ∧
      nd = .Stake
          { meta with
            rent_exempt_reserve := u64_to_be_bytes info.destination_rent_exempt_reserve }
          ⟨{ st.delegation with stake := u64_to_le_bytes amount }⟩ fl ∧
      ec = [⟨st.delegation, u64_to_be_bytes env.clock_epoch⟩] ∧ vc = 1 := by
  simp only [stake_branch] at h
  split at h
  case isFalse => exact absurd h (by simp)
  case isTrue hauth =>
  refine ⟨hauth, ?_⟩
  split at h
  · exact absurd h (by simp)
  case _ info hval =>
  split at h
  · exact absurd h (by simp)
  case _ delta amount hamounts =>
  split at h
  · exact absurd h (by simp)
  case _ hfloor =>
  split at h
  · exact absurd h (by simp)
  case _ s1 s2 hsp =>
  obtain ⟨hle, hs1, hs2⟩ := stakeData_split_ok st delta amount s1 s2 hsp
  simp only [Prod.mk.injEq, Except.ok.injEq] at h
  exact ⟨info, delta, amount, hval, hamounts, by omega, hle,
    by rw [← h.1.1, hs1], by rw [← h.1.2, hs2], h.2.1.symm, h.2.2.symm⟩

theorem initialized_branch_ok (env : Env) (signers : List Nat)
    (sb db dl a : Nat) (meta : Meta)
    (ns nd : StakeStateV2) (ec : List EvalCall) (vc : Nat)
    (h : initialized_branch env signers sb db dl a meta = (.ok (ns, nd), ec, vc)) :
    meta.authorized.check signers = true ∧
    ∃ info,
      validate_split_amount env sb db a meta dl 0 false = .ok info ∧
      ns = .Initialized meta ∧
      nd = .Initialized
          { meta with
            rent_exempt_reserve := u64_to_le_bytes info.destination_rent_exempt_reserve } ∧
      ec = [] ∧ vc = 1 := by
  simp only [initialized_branch] at h
  split at h
  case isFalse => exact absurd h (by simp)
  case isTrue hauth =>
  refine ⟨hauth, ?_⟩
  split at h
  · exact absurd h (by simp)
  case _ info hval =>
  simp only [Prod.mk.injEq, Except.ok.injEq] at h
  exact ⟨info, hval, h.1.1.symm, h.1.2.symm, h.2.1.symm, h.2.2.symm⟩

theorem process_split_result_ok (env : Env) (source destination : AccountInfo)
    (rest : List AccountInfo) (a : Nat) (s' d' : AccountInfo)
    (h : (process_split env (source :: destination :: rest) a).result = .ok (s', d')) :
    destination.data_len = StakeStateV2.size_of ∧
    a ≤ source.lamports ∧
    destination.state = .Uninitialized ∧
    ∃ ns nd,
      (source_dispatch env (collect_signers (source :: destination :: rest))
          source destination a).1 = .ok (ns, nd) ∧
      s' = { source with
               state := if a = source.lamports then .Uninitialized else ns,
               lamports := source.lamports - a } ∧
      d' = { destination with state := nd, lamports := destination.lamports + a } := by
  simp only [process_split] at h
  split at h
  · exact absurd h (by simp)
  case isFalse hlen =>
  split at h
  · exact absurd h (by simp)
  case isFalse hbal =>
  split at h
  case _ hdst =>
    split at h
    · exact absurd h (by simp)
    case _ ns nd ec vc hdisp =>
    split at h
    case _ e hrel =>
      rw [relocate_lamports, if_neg hbal] at hrel
      exact absurd hrel (by simp)
    case _ sl dl hrel =>
      rw [relocate_lamports, if_neg hbal] at hrel
      simp only [Except.ok.injEq, Prod.mk.injEq] at hrel h
      refine ⟨by omega, by omega, hdst, ns, nd, by rw [hdisp], ?_, ?_⟩
      · rw [← h.1, ← hrel.1]
      · rw [← h.2, ← hrel.2]
  · exact absurd h (by simp)

theorem process_split_calls (env : Env) (source destination : AccountInfo)
    (rest : List AccountInfo) (a : Nat) :
    ((process_split env (source :: destination :: rest) a).eval_calls = [] ∧
     (process_split env (source :: destination :: rest) a).validator_calls = 0) ∨
    ((process_split env (source :: destination :: rest) a).eval_calls =
       (source_dispatch env (collect_signers (source :: destination :: rest))
         source destination a).2.1 ∧
     (process_split env (source :: destination :: rest) a).validator_calls =
       (source_dispatch env (collect_signers (source :: destination :: rest))
         source destination a).2.2) := by
  simp only [process_split]
  split
  · exact Or.inl ⟨rfl, rfl⟩
  split
  · exact Or.inl ⟨rfl, rfl⟩
  split
  · split
    case _ e ec vc hdisp => exact Or.inr (by rw [hdisp]; exact ⟨rfl, rfl⟩)
    case _ ns nd ec vc hdisp =>
      split
      · exact Or.inr (by rw [hdisp]; exact ⟨rfl, rfl⟩)
      · exact Or.inr (by rw [hdisp]; exact ⟨rfl, rfl⟩)
  · exact Or.inl ⟨rfl, rfl⟩

theorem validate_split_amount_ok (env : Env) (sb db a : Nat) (meta : Meta)
    (dl mind : Nat) (act : Bool) (info : ValidatedSplitInfo)
    (h : validate_split_amount env sb db a meta dl mind act = .ok info) :
    a ≤ sb ∧
    (sb - a = 0 ∨ u64_from_le_bytes meta.rent_exempt_reserve ≤ sb - a) ∧
    env.rent_minimum_balance dl ≤ db + a ∧
    info = ⟨sb - a, env.rent_minimum_balance dl⟩ := by
  simp only [validate_split_amount] at h
  split at h
  · exact absurd h (by simp)
  case isFalse hb =>
  split at h
  · exact absurd h (by simp)
  case isFalse hrem =>
  split at h
  · exact absurd h (by simp)
  case isFalse hdst =>
  simp only [Except.ok.injEq] at h
  exact ⟨by omega, by omega, by omega, h.symm⟩

theorem stake_branch_eval_calls (env : Env) (signers : List Nat)
    (sb db dl a : Nat) (meta : Meta) (st : StakeData) (fl : Nat) :
    (stake_branch env signers sb db dl a meta st fl).2.1 = [] ∨
    (stake_branch env signers sb db dl a meta st fl).2.1 =
      [⟨st.delegation, u64_to_be_bytes env.clock_epoch⟩] := by
  simp only [stake_branch]
  split
  · split
    · exact Or.inr rfl
    · split
      · exact Or.inr rfl
      · split
        · exact Or.inr rfl
        · split
          · exact Or.inr rfl
          · exact Or.inr rfl
  · exact Or.inl rfl

theorem initialized_branch_eval_calls (env : Env) (signers : List Nat)
    (sb db dl a : Nat) (meta : Meta) :
    (initialized_branch env signers sb db dl a meta).2.1 = [] := by
  simp only [initialized_branch]
  split
  · split
    · rfl
    · rfl
  · rfl

/-! ## Concrete fixtures used by witnesses and counterexamples -/

/-- A concrete environment: epoch 5, minimum delegation 50, constant
rent threshold 100, evaluator reporting zero effective stake. -/
def envW : Env where
  clock_epoch := 5
  minimum_delegation := 50
  rent_minimum_balance := fun _ => 100
  effective_stake := fun _ _ => u64_to_le_bytes 0

/-- A concrete meta: reserve 100 (canonically encoded), staker key 7. -/
def metaW : Meta := ⟨u64_to_le_bytes 100, ⟨7, 9⟩, 0⟩

/-- A concrete delegation of 400 to voter 11. -/
def delegW : Delegation := ⟨11, u64_to_le_bytes 400, u64_to_le_bytes 1, u64_to_le_bytes 99⟩

/-- A concrete `Stake` payload carrying `delegW`. -/
def stakeW : StakeData := ⟨delegW⟩

/-- An uninitialized source account that signed, balance 10. -/
def srcUninitW : AccountInfo := ⟨7, 10, 200, true, .Uninitialized⟩

/-- An empty destination account of the correct record size. -/
def dstW : AccountInfo := ⟨8, 0, 200, false, .Uninitialized⟩

/-- A `Stake` source: key 7 (the staker) signed, balance 1000, stake 400,
reserve 100. -/
def srcStakeW : AccountInfo := ⟨7, 1000, 200, true, .Stake metaW stakeW 0⟩

/-- A `Stake` source whose balance 500 equals reserve 100 plus stake 400,
for full-split runs. -/
def srcStakeFullW : AccountInfo := ⟨7, 500, 200, true, .Stake metaW stakeW 0⟩

/-- An `Initialized` source: key 7 signed, balance 1000, reserve 100. -/
def srcInitW : AccountInfo := ⟨7, 1000, 200, true, .Initialized metaW⟩

/-- An occupied destination (already `Initialized`). -/
def dstOccupiedW : AccountInfo := ⟨8, 0, 200, false, .Initialized metaW⟩

/-- An uninitialized source account that did not sign. -/
def srcUninitUnsignedW : AccountInfo := ⟨7, 10, 200, false, .Uninitialized⟩

/-- A destination of a wrong record size. -/
def dstWrongSizeW : AccountInfo := ⟨8, 0, 100, false, .Uninitialized⟩

/-- `delegW` after 200 stake is removed by a partial split of 200. -/
def delegSrcAfterW : Delegation := ⟨11, u64_to_le_bytes 200, u64_to_le_bytes 1, u64_to_le_bytes 99⟩

/-- `metaW` as written into the destination by the `Stake` branch: the
reserve bytes are the big-endian encoding of 100. -/
def metaBeW : Meta := ⟨u64_to_be_bytes 100, ⟨7, 9⟩, 0⟩

/-- The destination delegation created by the partial split of 200:
stake 100 (200 minus the 100-lamport rent top-up). -/
def delegDstAfterW : Delegation := ⟨11, u64_to_le_bytes 100, u64_to_le_bytes 1, u64_to_le_bytes 99⟩

/-- `srcStakeW` after the partial split of 200. -/
def srcStakeAfterW : AccountInfo := ⟨7, 800, 200, true, .Stake metaW ⟨delegSrcAfterW⟩ 0⟩

/-- `dstW` after the partial split of 200 from `srcStakeW`. -/
def dstStakeAfterW : AccountInfo := ⟨8, 200, 200, false, .Stake metaBeW ⟨delegDstAfterW⟩ 0⟩

/-- The destination delegation created by the full split of 500 from
`srcStakeFullW`: stake 400 = 500 minus the source reserve 100. -/
def delegDstFullW : Delegation := ⟨11, u64_to_le_bytes 400, u64_to_le_bytes 1, u64_to_le_bytes 99⟩

/-- `srcStakeFullW` after the full split of 500: drained and uninitialized. -/
def srcFullAfterW : AccountInfo := ⟨7, 0, 200, true, .Uninitialized⟩

/-- `dstW` after the full split of 500 from `srcStakeFullW`. -/
def dstFullAfterW : AccountInfo := ⟨8, 500, 200, false, .Stake metaBeW ⟨delegDstFullW⟩ 0⟩

/-- `dstW` pre-funded with 77 lamports. -/
def dstPrefund77W : AccountInfo := ⟨8, 77, 200, false, .Uninitialized⟩

/-- `dstPrefund77W` after the full split of 500 from `srcStakeFullW`. -/
def dstFullAfter77W : AccountInfo := ⟨8, 577, 200, false, .Stake metaBeW ⟨delegDstFullW⟩ 0⟩

/-- `srcInitW` after an initialized split of 200. -/
def srcInitAfterW : AccountInfo := ⟨7, 800, 200, true, .Initialized metaW⟩

/-- `dstW` after an initialized split of 200 from `srcInitW`: the copied
meta's reserve is the little-endian encoding of 100, i.e. `metaW` itself. -/
def dstInitAfterW : AccountInfo := ⟨8, 200, 200, false, .Initialized metaW⟩

/-! ## The claims -/

/-- Claim C1: for every split that succeeds (`process_split` returns
`Ok`), the sum of the source and destination lamport balances after the
call equals the sum before the call: the handler moves exactly
`split_lamports` via the relocator (source debited, destination
credited) and no other balance change occurs. -/
theorem claim_C1_lamport_conservation (env : Env) (source destination : AccountInfo)
    (rest : List AccountInfo) (a : Nat) (s' d' : AccountInfo)
    (h : (process_split env (source :: destination :: rest) a).result = .ok (s', d')) :
    s'.lamports + d'.lamports = source.lamports + destination.lamports ∧
    s'.lamports = source.lamports - a ∧
    d'.lamports = destination.lamports + a := by
  obtain ⟨-, hle, -, ns, nd, -, hs, hd⟩ :=
    process_split_result_ok env source destination rest a s' d' h
  have e1 : s'.lamports = source.lamports - a := by rw [hs]
  have e2 : d'.lamports = destination.lamports + a := by rw [hd]
  exact ⟨by omega, e1, e2⟩

/-- Witness for C1: a concrete successful split of 4 lamports out of a
10-lamport uninitialized source. -/
theorem claim_C1_lamport_conservation_witness :
    (⟨7, 6, 200, true, .Uninitialized⟩ : AccountInfo).lamports +
      (⟨8, 4, 200, false, .Uninitialized⟩ : AccountInfo).lamports =
      srcUninitW.lamports + dstW.lamports ∧
    (⟨7, 6, 200, true, .Uninitialized⟩ : AccountInfo).lamports =
      srcUninitW.lamports - 4 ∧
    (⟨8, 4, 200, false, .Uninitialized⟩ : AccountInfo).lamports =
      dstW.lamports + 4 :=
  claim_C1_lamport_conservation envW srcUninitW dstW [] 4
    ⟨7, 6, 200, true, .Uninitialized⟩ ⟨8, 4, 200, false, .Uninitialized⟩ rfl

/-- Claim C4: for every successful split where `split_lamports` equals
the source's lamport balance captured at entry, the source's final
persisted state is `Uninitialized`, regardless of its prior variant. -/
theorem claim_C4_full_drain_uninitializes (env : Env)
    (source destination : AccountInfo) (rest : List AccountInfo) (a : Nat)
    (s' d' : AccountInfo)
    (hfull : a = source.lamports)
    (h : (process_split env (source :: destination :: rest) a).result = .ok (s', d')) :
    s'.state = .Uninitialized := by
  obtain ⟨-, -, -, ns, nd, -, hs, -⟩ :=
    process_split_result_ok env source destination rest a s' d' h
  rw [hs]
  show (if a = source.lamports then StakeStateV2.Uninitialized else ns) = .Uninitialized
  rw [if_pos hfull]

/-- Witness for C4: draining all 10 lamports of the uninitialized source
leaves it `Uninitialized`. -/
theorem claim_C4_full_drain_uninitializes_witness :
    (⟨7, 0, 200, true, .Uninitialized⟩ : AccountInfo).state = .Uninitialized :=
  claim_C4_full_drain_uninitializes envW srcUninitW dstW [] 10
    ⟨7, 0, 200, true, .Uninitialized⟩ ⟨8, 10, 200, false, .Uninitialized⟩ rfl rfl

/-- Counterexample to Claim C2 as stated: at this concrete partial split
of 200 lamports from a source with stake 400 into an empty destination
(rent reserve 100), the split succeeds but the source's prior delegated
stake (400) does not equal the sum of the two delegated stakes
afterwards (200 + 100 = 300): 100 lamports of the moved stake are
consumed as the destination's rent top-up and leave the delegation. -/
theorem claim_C2_counterexample :
    (process_split envW [srcStakeW, dstW] 200).result =
      .ok (srcStakeAfterW, dstStakeAfterW) ∧
    srcStakeW.state.delegated_stake = 400 ∧
    srcStakeAfterW.state.delegated_stake = 200 ∧
    dstStakeAfterW.state.delegated_stake = 100 ∧
    srcStakeAfterW.state.delegated_stake + dstStakeAfterW.state.delegated_stake ≠
      srcStakeW.state.delegated_stake :=
  ⟨rfl, rfl, rfl, rfl, by decide⟩

/-- Claim C2 (amended): for every successful split of a `Stake`-variant
source, no delegated stake is created: the source's delegated stake
before the call is at least the source's plus the destination's
delegated stake after the call.  (Equality can fail: in a partial split
the destination's granted stake is the moved amount minus the rent
top-up, while the full moved amount is removed from the source.) -/
theorem claim_C2_no_stake_creation (env : Env) (source destination : AccountInfo)
    (rest : List AccountInfo) (a : Nat) (meta : Meta) (st : StakeData) (fl : Nat)
    (s' d' : AccountInfo)
    (hsrc : source.state = .Stake meta st fl)
    (h : (process_split env (source :: destination :: rest) a).result = .ok (s', d')) :
    s'.state.delegated_stake + d'.state.delegated_stake ≤
      source.state.delegated_stake := by
  obtain ⟨-, -, -, ns, nd, hdisp, hs, hd⟩ :=
    process_split_result_ok env source destination rest a s' d' h
  simp only [source_dispatch, hsrc] at hdisp
  rcases hT : stake_branch env (collect_signers (source :: destination :: rest))
      source.lamports destination.lamports destination.data_len a meta st fl
    with ⟨res, ec, vc⟩
  rw [hT] at hdisp
  have hres : res = Except.ok (ns, nd) := hdisp
  rw [hres] at hT
  obtain ⟨hauth, info, delta, amount, hval, hamounts, hfloor, hle, hns, hnd, hec, hvc⟩ :=
    stake_branch_ok env _ _ _ _ _ meta st fl ns nd ec vc hT
  have hamle : amount ≤ delta := by
    rcases split_stake_amounts_ok _ _ _ _ _ _ _ _ _ hamounts with
      ⟨-, h1, h2⟩ | ⟨-, -, h1, h2⟩ <;> omega
  have hcur : source.state.delegated_stake = u64_from_le_bytes st.delegation.stake := by
    rw [hsrc]
    rfl
  have hdstake : d'.state.delegated_stake = amount % 2 ^ 64 := by
    rw [hd]
    show nd.delegated_stake = amount % 2 ^ 64
    rw [hnd]
    show u64_from_le_bytes (u64_to_le_bytes amount) = amount % 2 ^ 64
    exact u64_from_le_bytes_to_le amount
  have hmodle : amount % 2 ^ 64 ≤ amount := Nat.mod_le _ _
  have hsstake : s'.state.delegated_stake ≤
      u64_from_le_bytes st.delegation.stake - delta := by
    rw [hs]
    show (if a = source.lamports then StakeStateV2.Uninitialized
        else ns).delegated_stake ≤ _
    split
    · exact Nat.zero_le _
    · rw [hns]
      show u64_from_le_bytes (u64_to_le_bytes
        (u64_from_le_bytes st.delegation.stake - delta)) ≤ _
      rw [u64_from_le_bytes_to_le]
      exact Nat.mod_le _ _
  omega

/-- Witness for amended C2 at the concrete partial split: 200 + 100 ≤ 400. -/
theorem claim_C2_no_stake_creation_witness :
    srcStakeAfterW.state.delegated_stake + dstStakeAfterW.state.delegated_stake ≤
      srcStakeW.state.delegated_stake :=
  claim_C2_no_stake_creation envW srcStakeW dstW [] 200 metaW stakeW 0
    srcStakeAfterW dstStakeAfterW rfl rfl

/-- Claim C3: in the full-split branch (validated
`source_remaining_balance == 0`) of a `Stake` source, the removed stake
delta and the granted destination stake are both `split_lamports` minus
the source's original rent-exempt reserve (saturating at zero) — for
every destination prior balance and destination reserve — and two
successful runs that differ only in the destination's prior lamport
balance grant the same destination delegated stake. -/
theorem claim_C3_full_split_prefund_independent (env : Env)
    (source dest1 dest2 : AccountInfo) (rest : List AccountInfo) (a : Nat)
    (meta : Meta) (st : StakeData) (fl : Nat)
    (s1 d1 s2 d2 : AccountInfo)
    (hsrc : source.state = .Stake meta st fl)
    (_hsame : dest2.key = dest1.key ∧ dest2.data_len = dest1.data_len ∧
              dest2.is_signer = dest1.is_signer ∧ dest2.state = dest1.state)
    (hrem : source.lamports - a = 0)
    (ha : a < 2 ^ 64)
    (h1 : (process_split env (source :: dest1 :: rest) a).result = .ok (s1, d1))
    (h2 : (process_split env (source :: dest2 :: rest) a).result = .ok (s2, d2)) :
    d1.state.delegated_stake = a - u64_from_le_bytes meta.rent_exempt_reserve ∧
    d2.state.delegated_stake = d1.state.delegated_stake ∧
    ∀ drer p, split_stake_amounts 0 a (u64_from_le_bytes meta.rent_exempt_reserve)
        (u64_from_le_bytes st.delegation.stake) env.minimum_delegation drer p =
      .ok (a - u64_from_le_bytes meta.rent_exempt_reserve,
           a - u64_from_le_bytes meta.rent_exempt_reserve) := by
  have key : ∀ destx : AccountInfo, ∀ sx dx : AccountInfo,
      (process_split env (source :: destx :: rest) a).result = .ok (sx, dx) →
      dx.state.delegated_stake = a - u64_from_le_bytes meta.rent_exempt_reserve := by
    intro destx sx dx hx
    obtain ⟨-, -, -, ns, nd, hdisp, hsx, hdx⟩ :=
      process_split_result_ok env source destx rest a sx dx hx
    simp only [source_dispatch, hsrc] at hdisp
    rcases hT : stake_branch env (collect_signers (source :: destx :: rest))
        source.lamports destx.lamports destx.data_len a meta st fl
      with ⟨res, ec, vc⟩
    rw [hT] at hdisp
    have hres : res = Except.ok (ns, nd) := hdisp
    rw [hres] at hT
    obtain ⟨hauth, info, delta, amount, hval, hamounts, hfloor, hle, hns, hnd, hec, hvc⟩ :=
      stake_branch_ok env _ _ _ _ _ meta st fl ns nd ec vc hT
    obtain ⟨-, -, -, hinfo⟩ :=
      validate_split_amount_ok env _ _ _ _ _ _ _ _ hval
    have hsrb : info.source_remaining_balance = 0 := by rw [hinfo]; exact hrem
    have hamount : amount = a - u64_from_le_bytes meta.rent_exempt_reserve := by
      rcases split_stake_amounts_ok _ _ _ _ _ _ _ _ _ hamounts with
        ⟨-, h1, h2⟩ | ⟨hne, -, -, -⟩
      · omega
      · exact absurd hsrb hne
    have : dx.state.delegated_stake = amount % 2 ^ 64 := by
      rw [hdx]
      show nd.delegated_stake = amount % 2 ^ 64
      rw [hnd]
      show u64_from_le_bytes (u64_to_le_bytes amount) = amount % 2 ^ 64
      exact u64_from_le_bytes_to_le amount
    rw [this, hamount, Nat.mod_eq_of_lt (by omega)]
  refine ⟨key dest1 s1 d1 h1, ?_, ?_⟩
  · rw [key dest1 s1 d1 h1, key dest2 s2 d2 h2]
  · intro drer p
    rfl

/-- Witness for C3: the full split of 500 from `srcStakeFullW` grants
destination stake 400 = 500 − 100 both for an empty destination and for
one pre-funded with 77 lamports. -/
theorem claim_C3_full_split_prefund_independent_witness :
    dstFullAfterW.state.delegated_stake =
      500 - u64_from_le_bytes metaW.rent_exempt_reserve ∧
    dstFullAfter77W.state.delegated_stake = dstFullAfterW.state.delegated_stake := by
  have h := claim_C3_full_split_prefund_independent envW srcStakeFullW dstW
    dstPrefund77W [] 500 metaW stakeW 0 srcFullAfterW dstFullAfterW
    srcFullAfterW dstFullAfter77W rfl ⟨rfl, rfl, rfl, rfl⟩ rfl (by norm_num) rfl rfl
  exact ⟨h.1, h.2.1⟩

/-- Claim C5: for every partial split of a `Stake`-variant source
(validated `source_remaining_balance > 0`), if the source's delegated
stake minus `split_lamports` (saturating) is below the minimum
delegation, `process_split` fails with the insufficient-delegation
error.  (On failure the runtime persists no account mutation, which the
model reflects by carrying no accounts in an error result.) -/
theorem claim_C5_partial_split_min_delegation (env : Env)
    (source destination : AccountInfo) (rest : List AccountInfo) (a : Nat)
    (meta : Meta) (st : StakeData) (fl : Nat) (info : ValidatedSplitInfo)
    (hsrc : source.state = .Stake meta st fl)
    (hlen : destination.data_len = StakeStateV2.size_of)
    (hbal : a ≤ source.lamports)
    (hdst : destination.state = .Uninitialized)
    (hauth : meta.authorized.check (collect_signers (source :: destination :: rest)) = true)
    (hval : validate_split_amount env source.lamports destination.lamports a meta
        destination.data_len env.minimum_delegation
        (bytes_to_u64 (env.effective_stake st.delegation
          (u64_to_be_bytes env.clock_epoch)) > 0) = .ok info)
    (hrem : info.source_remaining_balance ≠ 0)
    (hmin : u64_from_le_bytes st.delegation.stake - a < env.minimum_delegation) :
    (process_split env (source :: destination :: rest) a).result =
      .error .InsufficientDelegation := by
  have hnb : ¬ a > source.lamports := Nat.not_lt.mpr hbal
  have hbr : stake_branch env (collect_signers (source :: destination :: rest))
      source.lamports destination.lamports destination.data_len a meta st fl
      = (.error .InsufficientDelegation,
         [⟨st.delegation, u64_to_be_bytes env.clock_epoch⟩], 1) := by
    simp only [stake_branch, hauth, if_true, hval, split_stake_amounts, hrem, hmin,
      if_false, ite_false, ite_true, ne_eq, not_false_iff]
  rw [hlen] at hbr
  simp [process_split, source_dispatch, hsrc, hdst, hlen, hnb, hbr]

/-- Witness for C5: splitting 380 of the 1000-lamport stake source with
stake 400 would leave 20 < 50 delegated, and fails accordingly. -/
theorem claim_C5_partial_split_min_delegation_witness :
    (process_split envW [srcStakeW, dstW] 380).result =
      .error .InsufficientDelegation :=
  claim_C5_partial_split_min_delegation envW srcStakeW dstW [] 380 metaW stakeW 0
    ⟨620, 100⟩ rfl rfl (by decide) rfl rfl rfl (by decide) (by decide)

/-- Counterexample to Claim C6 as stated: with an occupied destination
but a split amount exceeding the source balance, the handler fails with
insufficient-funds (the balance check precedes the occupancy check), not
invalid-account-data. -/
theorem claim_C6_counterexample :
    dstOccupiedW.state ≠ .Uninitialized ∧
    (process_split envW [srcStakeW, dstOccupiedW] 9999).result =
      .error .InsufficientFunds ∧
    ProgramError.InsufficientFunds ≠ ProgramError.InvalidAccountData :=
  ⟨by decide, rfl, by decide⟩

/-- Claim C6 (amended): for every invocation with an occupied
destination (parsed state other than `Uninitialized`) the handler always
fails, for every source variant; whenever `split_lamports` does not
exceed the source balance the error is invalid-account-data (if it does,
the earlier balance check fails first with insufficient-funds).  On
failure no account is mutated. -/
theorem claim_C6_destination_occupied (env : Env)
    (source destination : AccountInfo) (rest : List AccountInfo) (a : Nat)
    (hdst : destination.state ≠ .Uninitialized) :
    (∃ e, (process_split env (source :: destination :: rest) a).result = .error e) ∧
    (a ≤ source.lamports →
      (process_split env (source :: destination :: rest) a).result =
        .error .InvalidAccountData) := by
  cases hds : destination.state
  case Uninitialized => exact absurd hds hdst
  all_goals
    simp only [process_split, hds]
    split
    · exact ⟨⟨_, rfl⟩, fun _ => rfl⟩
    · split
      · rename_i hgt
        exact ⟨⟨_, rfl⟩, fun hle => absurd hle (by omega)⟩
      · exact ⟨⟨_, rfl⟩, fun _ => rfl⟩

/-- Witness for amended C6: splitting 200 ≤ 1000 into the occupied
destination fails with invalid-account-data. -/
theorem claim_C6_destination_occupied_witness :
    (process_split envW [srcStakeW, dstOccupiedW] 200).result =
      .error .InvalidAccountData :=
  (claim_C6_destination_occupied envW srcStakeW dstOccupiedW [] 200
    (by decide)).2 (by decide)

/-- Counterexample to Claim C7 as stated: an unsigned `Uninitialized`
source together with a wrong-sized destination fails with
invalid-account-data (the size check precedes the dispatch), not with
missing-signature. -/
theorem claim_C7_counterexample :
    srcUninitUnsignedW.state = .Uninitialized ∧
    srcUninitUnsignedW.is_signer = false ∧
    (process_split envW [srcUninitUnsignedW, dstWrongSizeW] 4).result =
      .error .InvalidAccountData ∧
    ProgramError.InvalidAccountData ≠ ProgramError.MissingRequiredSignature :=
  ⟨rfl, rfl, rfl, by decide⟩

/-- Claim C7 (amended): for every invocation whose source parses as
`Uninitialized`, success requires the source account itself to have
signed; if it did not sign and the pre-dispatch checks pass (destination
of record size, split amount within the source balance, destination
uninitialized), the call fails with missing-signature; and no validator
or activation-evaluator call ever occurs on this path. -/
theorem claim_C7_uninitialized_source_signer (env : Env)
    (source destination : AccountInfo) (rest : List AccountInfo) (a : Nat)
    (hsrc : source.state = .Uninitialized) :
    (∀ s' d', (process_split env (source :: destination :: rest) a).result =
        .ok (s', d') → source.is_signer = true) ∧
    (source.is_signer = false → destination.data_len = StakeStateV2.size_of →
      a ≤ source.lamports → destination.state = .Uninitialized →
      (process_split env (source :: destination :: rest) a).result =
        .error .MissingRequiredSignature) ∧
    (process_split env (source :: destination :: rest) a).eval_calls = [] ∧
    (process_split env (source :: destination :: rest) a).validator_calls = 0 := by
  have hd2 : (source_dispatch env (collect_signers (source :: destination :: rest))
      source destination a).2 = ([], 0) := by
    simp only [source_dispatch, hsrc]
    split <;> rfl
  refine ⟨?_, ?_, ?_⟩
  · intro s' d' h
    obtain ⟨-, -, -, ns, nd, hdisp, -, -⟩ :=
      process_split_result_ok env source destination rest a s' d' h
    by_cases hsig : source.is_signer
    · exact hsig
    · simp only [source_dispatch, hsrc, hsig, if_false, Bool.false_eq_true, ite_false]
        at hdisp
      exact absurd hdisp (by simp)
  · intro hsig hlen hbal hdst
    have hnb : ¬ a > source.lamports := Nat.not_lt.mpr hbal
    simp [process_split, source_dispatch, hsrc, hdst, hlen, hnb, hsig]
  · have hcalls := process_split_calls env source destination rest a
    rcases hcalls with ⟨he, hv⟩ | ⟨he, hv⟩
    · exact ⟨he, hv⟩
    · constructor
      · rw [he]
        show (source_dispatch env (collect_signers (source :: destination :: rest))
          source destination a).2.1 = []
        rw [hd2]
      · rw [hv]
        show (source_dispatch env (collect_signers (source :: destination :: rest))
          source destination a).2.2 = 0
        rw [hd2]

/-- Witness for amended C7: the unsigned uninitialized source with a
well-formed destination fails with missing-signature, with no evaluator
or validator call. -/
theorem claim_C7_uninitialized_source_signer_witness :
    (process_split envW [srcUninitUnsignedW, dstW] 4).result =
      .error .MissingRequiredSignature ∧
    (process_split envW [srcUninitUnsignedW, dstW] 4).eval_calls = [] ∧
    (process_split envW [srcUninitUnsignedW, dstW] 4).validator_calls = 0 := by
  have h := claim_C7_uninitialized_source_signer envW srcUninitUnsignedW dstW [] 4 rfl
  exact ⟨h.2.1 rfl rfl (by decide) rfl, h.2.2.1, h.2.2.2⟩

/-- Claim C8, evaluated at the failing input: in the `Stake` branch the
destination meta's `rent_exempt_reserve` is written with `to_be_bytes`,
so under the record format's canonical little-endian encoding (the one
the handler itself uses to read the field, and the one the `Initialized`
branch writes) the persisted value is not the validator's reserve 100
but its byte-reversal; every other `Meta` field is copied from the
source.  The `Initialized` branch at the same parameters persists the
little-endian bytes, which decode to 100. -/
theorem claim_C8_reserve_endianness_bug :
    (process_split envW [srcStakeW, dstW] 200).result =
      .ok (srcStakeAfterW, dstStakeAfterW) ∧
    dstStakeAfterW.state = .Stake metaBeW ⟨delegDstAfterW⟩ 0 ∧
    metaBeW.rent_exempt_reserve = u64_to_be_bytes 100 ∧
    u64_from_le_bytes metaBeW.rent_exempt_reserve ≠ 100 ∧
    u64_from_le_bytes metaBeW.rent_exempt_reserve = 100 * 256 ^ 7 ∧
    metaBeW.authorized = metaW.authorized ∧
    metaBeW.lockup = metaW.lockup ∧
    (process_split envW [srcInitW, dstW] 200).result =
      .ok (srcInitAfterW, dstInitAfterW) ∧
    dstInitAfterW.state = .Initialized metaW ∧
    metaW.rent_exempt_reserve = u64_to_le_bytes 100 ∧
    u64_from_le_bytes metaW.rent_exempt_reserve = 100 :=
  ⟨rfl, rfl, rfl, by decide, by decide, rfl, rfl, rfl, rfl, rfl, by decide⟩

/-- Claim C9: the stake-activation evaluator is consulted only when the
source variant is `Stake` (never for `Initialized`, `Uninitialized` or
`RewardsPool` sources), with the source's delegation, and its epoch
argument is the clock's current epoch (passed, as in the handler, as the
big-endian byte encoding of `clock.epoch`). -/
theorem claim_C9_evaluator_only_for_stake (env : Env)
    (source destination : AccountInfo) (rest : List AccountInfo) (a : Nat) :
    (∀ c ∈ (process_split env (source :: destination :: rest) a).eval_calls,
      c.epoch_arg = u64_to_be_bytes env.clock_epoch ∧
      u64_from_be_bytes c.epoch_arg = env.clock_epoch % 2 ^ 64 ∧
      ∃ meta st fl, source.state = .Stake meta st fl ∧ c.delegation = st.delegation) ∧
    ((∀ meta st fl, source.state ≠ .Stake meta st fl) →
      (process_split env (source :: destination :: rest) a).eval_calls = []) := by
  have hcalls := process_split_calls env source destination rest a
  have hkey : ∀ c ∈ (source_dispatch env
      (collect_signers (source :: destination :: rest)) source destination a).2.1,
      c.epoch_arg = u64_to_be_bytes env.clock_epoch ∧
      u64_from_be_bytes c.epoch_arg = env.clock_epoch % 2 ^ 64 ∧
      ∃ meta st fl, source.state = .Stake meta st fl ∧ c.delegation = st.delegation := by
    intro c hc
    cases hst : source.state with
    | Uninitialized =>
      simp only [source_dispatch, hst] at hc
      rcases hsig : source.is_signer <;> simp [hsig] at hc
    | Initialized m =>
      simp only [source_dispatch, hst] at hc
      rw [initialized_branch_eval_calls] at hc
      exact absurd hc (List.not_mem_nil c)
    | Stake m st fl =>
      simp only [source_dispatch, hst] at hc
      rcases stake_branch_eval_calls env
          (collect_signers (source :: destination :: rest)) source.lamports
          destination.lamports destination.data_len a m st fl with he | he
      · rw [he] at hc
        exact absurd hc (List.not_mem_nil c)
      · rw [he] at hc
        rw [List.mem_singleton] at hc
        subst hc
        exact ⟨rfl, u64_from_be_bytes_to_be env.clock_epoch, m, st, fl, rfl, rfl⟩
    | RewardsPool =>
      simp only [source_dispatch, hst] at hc
      exact absurd hc (List.not_mem_nil c)
  constructor
  · intro c hc
    rcases hcalls with ⟨he, -⟩ | ⟨he, -⟩
    · rw [he] at hc
      exact absurd hc (List.not_mem_nil c)
    · rw [he] at hc
      exact hkey c hc
  · intro hnot
    rcases hcalls with ⟨he, -⟩ | ⟨he, -⟩
    · exact he
    · rw [he]
      cases hst : source.state with
      | Uninitialized =>
        simp only [source_dispatch, hst]
        split <;> rfl
      | Initialized m =>
        simp only [source_dispatch, hst]
        exact initialized_branch_eval_calls _ _ _ _ _ _ _
      | Stake m st fl => exact absurd hst (hnot m st fl)
      | RewardsPool =>
        simp only [source_dispatch, hst]

/-- Witness for C9: in the concrete partial-split run the single
recorded evaluator call carries the source delegation and the big-endian
bytes of epoch 5. -/
theorem claim_C9_evaluator_only_for_stake_witness :
    (⟨delegW, u64_to_be_bytes 5⟩ : EvalCall).epoch_arg =
      u64_to_be_bytes envW.clock_epoch ∧
    u64_from_be_bytes (⟨delegW, u64_to_be_bytes 5⟩ : EvalCall).epoch_arg =
      envW.clock_epoch % 2 ^ 64 ∧
    ∃ meta st fl, srcStakeW.state = .Stake meta st fl ∧
      (⟨delegW, u64_to_be_bytes 5⟩ : EvalCall).delegation = st.delegation :=
  (claim_C9_evaluator_only_for_stake envW srcStakeW dstW [] 200).1
    ⟨delegW, u64_to_be_bytes 5⟩ (by decide)

/-- Claim C10: with fewer than two accounts the handler fails with
not-enough-account-keys (and, failing, mutates nothing); with more than
two accounts, the extra accounts influence the run only through the
collected signer set: two invocations agreeing on the first two accounts
and on the collected signers produce identical runs. -/
theorem claim_C10_account_arity_and_signer_influence (env : Env)
    (accounts : List AccountInfo) (a : Nat) :
    (accounts.length < 2 →
      (process_split env accounts a).result = .error .NotEnoughAccountKeys) ∧
    (∀ source destination rest1 rest2,
      collect_signers (source :: destination :: rest1) =
        collect_signers (source :: destination :: rest2) →
      process_split env (source :: destination :: rest1) a =
        process_split env (source :: destination :: rest2) a) := by
  constructor
  · intro hlen
    match accounts with
    | [] => rfl
    | [x] => rfl
    | x :: y :: r =>
      simp only [List.length_cons] at hlen
      exact absurd hlen (by omega)
  · intro source destination rest1 rest2 hsig
    simp only [process_split, hsig]

/-- Witness for C10: the empty account list fails with
not-enough-account-keys, and appending a non-signing extra account does
not change the run. -/
theorem claim_C10_account_arity_witness :
    (process_split envW ([] : List AccountInfo) 4).result =
      .error .NotEnoughAccountKeys ∧
    process_split envW [srcUninitW, dstW, srcUninitUnsignedW] 4 =
      process_split envW [srcUninitW, dstW] 4 := by
  have h := claim_C10_account_arity_and_signer_influence envW [] 4
  exact ⟨h.1 (by decide), h.2 srcUninitW dstW [srcUninitUnsignedW] [] rfl⟩

end PinocchioStake
